import Mathlib

/-!
Verification of the thread-pool and mapped-file core of Ethereal
(src/thread.c and src/misc.c), as a shallow embedding in Lean.

Machine integers are modelled as `Nat`/`Int` with explicit reduction
modulo `2 ^ 64` where the C code relies on unsigned 64-bit wraparound.
Pointers are modelled as natural-number addresses; the per-worker frame
arrays are lists, with access pointers carried as (base address, offset)
pairs so that the pointer arithmetic of the source is explicit.
-/

namespace Ethereal

/-- Side-to-move constant for the first player (types.h, not under src/;
the spec calls this the first player). -/
def WHITE : Nat := 0

/-- Side-to-move constant for the second player (types.h, not under src/;
the spec calls this the second player). -/
def BLACK : Nat := 1

/-- Modelled from the spec: the layout constants that thread.h and the
NNUE headers define but which are not under src/ — the frame-array
capacity `STACK_SIZE`, the padding offset `STACK_OFFSET` (a fixed number
of reserved slots before the logical start), the byte stride of one
accumulator frame (`sizeof(NNUEStack)`) and the byte offset of the
accumulation buffer inside a frame. -/
structure Layout where
  STACK_SIZE : Nat
  STACK_OFFSET : Nat
  frameStride : Nat
  accOffset : Nat
deriving DecidableEq

/-- One NNUE accumulator record: the address of its internal
`accumulation` buffer, and the "computed" flag that the search-start
initialization must clear. -/
structure Accumulator where
  computedAccumulation : Bool
  accumulation : Nat
deriving DecidableEq

/-- One element of the worker-private accumulator frame array
(`NNUEStack` in thread.h). -/
structure NNUEStack where
  accumulator : Accumulator
deriving DecidableEq

/-- The position snapshot (`Board`): its side to move, its state pointer
`st` (an address into some accumulator frame array), and `rest`, which
stands for every other byte of the structure, copied verbatim by
`memcpy` and never inspected by this core. -/
structure Board where
  turn : Nat
  st : Nat
  rest : Nat
deriving DecidableEq

/-- Contents of one per-worker table (killers, history, ...), indexed by
a flattened `Nat` index.  The exact dimensions live in headers outside
src/; only all-zero contents and preservation matter to this core. -/
def Table : Type := Nat → Int

/-- The all-zero table, the result of `memset(..., 0, ...)`. -/
def zeroTable : Table := fun _ => 0

/-- One worker record (`Thread` in thread.h), with the fields thread.c
reads or writes.  The four frame-array access pointers are stored as
offsets from the start of their backing arrays; `nnueBase` is the
address returned by the aligned allocator for `_nnueStack` and
`nnueFrames` holds that array's contents. -/
structure Thread where
  index : Nat
  nthreads : Nat
  evalStack : Nat
  moveStack : Nat
  pieceStack : Nat
  nnueStackOff : Nat
  nnueBase : Nat
  nnueFrames : List NNUEStack
  evtable : Table
  pktable : Table
  killers : Table
  cmtable : Table
  history : Table
  chistory : Table
  continuation : Table
  limits : Nat
  info : Nat
  contempt : Int
  height : Nat
  nodes : Nat
  tbhits : Nat
  board : Board

/-- One frame of the freshly allocated accumulator array of worker `i`:
its buffer address follows from the allocation base and the layout, and
its "computed" flag is whatever junk the (non-zeroing) aligned allocator
left there, supplied by `junk`. -/
def mkFrame (L : Layout) (junk : Nat → Nat → Bool) (base i j : Nat) : NNUEStack :=
  { accumulator :=
      { computedAccumulation := junk i j
        accumulation := base + j * L.frameStride + L.accOffset } }

/-- Worker `i` as built by the loop body of `createThreadPool`
(thread.c:57-80): the `Thread` array comes from `calloc`, so every field
not assigned by the loop is zero; the four access pointers are set to
the padding offset; `_nnueStack` is the aligned allocation `alloc i`. -/
def createThread (L : Layout) (alloc : Nat → Nat) (junk : Nat → Nat → Bool)
    (nthreads i : Nat) : Thread :=
  { index := i
    nthreads := nthreads
    evalStack := L.STACK_OFFSET
    moveStack := L.STACK_OFFSET
    pieceStack := L.STACK_OFFSET
    nnueStackOff := L.STACK_OFFSET
    nnueBase := alloc i
    nnueFrames := (List.range L.STACK_SIZE).map (mkFrame L junk (alloc i) i)
    evtable := zeroTable
    pktable := zeroTable
    killers := zeroTable
    cmtable := zeroTable
    history := zeroTable
    chistory := zeroTable
    continuation := zeroTable
    limits := 0
    info := 0
    contempt := 0
    height := 0
    nodes := 0
    tbhits := 0
    board := { turn := 0, st := 0, rest := 0 } }

/-- The alignment check of thread.c:74-79: every accumulator buffer
address of every worker must be a multiple of 64 bytes. -/
def alignedOK (L : Layout) (alloc : Nat → Nat) (nthreads : Nat) : Bool :=
  (List.range nthreads).all fun i =>
    (List.range L.STACK_SIZE).all fun j =>
      (alloc i + j * L.frameStride + L.accOffset) % 64 == 0

/-- `createThreadPool` (thread.c:53-84).  `alloc` gives the address the
aligned allocator returns for worker `i`'s `_nnueStack`.  If any frame
fails the 64-byte check the process calls `exit(EXIT_FAILURE)`,
modelled as `Except.error`. -/
def createThreadPool (L : Layout) (alloc : Nat → Nat) (junk : Nat → Nat → Bool)
    (nthreads : Nat) : Except Unit (List Thread) :=
  if alignedOK L alloc nthreads then
    Except.ok ((List.range nthreads).map (createThread L alloc junk nthreads))
  else
    Except.error ()

/-- The per-worker body of `resetThreadPool` (thread.c:92-103): zero the
two evaluation memoization tables and the five move-ordering tables. -/
def resetThread (t : Thread) : Thread :=
  { t with
    evtable := zeroTable
    pktable := zeroTable
    killers := zeroTable
    cmtable := zeroTable
    history := zeroTable
    chistory := zeroTable
    continuation := zeroTable }

/-- `resetThreadPool` (thread.c:86-104): the hard reset applied to every
worker in the pool. -/
def resetThreadPool (pool : List Thread) : List Thread :=
  pool.map resetThread

/-- Modelled from the spec: `MakeScore` from evaluate.h (not under
src/) packs the side-to-move-favoring ("first-player") component `mg`
and the opponent-favoring ("second-player") component `eg` into one
score value, `eg` in the upper 16 bits. -/
def MakeScore (mg eg : Int) : Int := 65536 * eg + mg

/-- Reinterpret the low 16 bits of an integer as a signed 16-bit value
(the `(int16_t)(uint16_t)` cast sequence of the unpacking macros). -/
def toInt16 (n : Int) : Int := (n + 32768) % 65536 - 32768

/-- Modelled from the spec: `ScoreMG` from evaluate.h (not under src/)
unpacks the first-player component of a packed score. -/
def ScoreMG (s : Int) : Int := toInt16 s

/-- Modelled from the spec: `ScoreEG` from evaluate.h (not under src/)
unpacks the second-player component: add `0x8000`, reduce to unsigned
32 bits, shift right 16, reinterpret as signed 16 bits. -/
def ScoreEG (s : Int) : Int := toInt16 (((s + 32768) % 4294967296) / 65536)

/-- The contempt computation of thread.c:122-123: pack
`drawPenalty + complexity` and `drawPenalty` into one score and negate
the whole value when the second player is to move. -/
def searchContempt (drawPenalty complexity : Int) (turn : Nat) : Int :=
  let c := MakeScore (drawPenalty + complexity) drawPenalty
  if turn = BLACK then -c else c

/-- The per-worker body of `newSearchThreadPool` (thread.c:127-139):
install the shared references and the contempt, reset height and both
counters, copy the board, rebind its state pointer to the worker's own
accumulator frame pointer, and clear every frame's "computed" flag. -/
def newSearchThread (L : Layout) (lim inf : Nat) (contempt : Int)
    (board : Board) (t : Thread) : Thread :=
  { t with
    limits := lim
    info := inf
    contempt := contempt
    height := 0
    nodes := 0
    tbhits := 0
    board := { board with st := t.nnueBase + t.nnueStackOff * L.frameStride }
    nnueFrames := t.nnueFrames.map fun f =>
      { f with accumulator := { f.accumulator with computedAccumulation := false } } }

/-- `newSearchThreadPool` (thread.c:115-141).  The global tunables
`ContemptDrawPenalty` and `ContemptComplexity` are passed explicitly. -/
def newSearchThreadPool (L : Layout) (drawPenalty complexity : Int)
    (pool : List Thread) (board : Board) (lim inf : Nat) : List Thread :=
  pool.map (newSearchThread L lim inf (searchContempt drawPenalty complexity board.turn) board)

/-- `nodesSearchedThreadPool` (thread.c:143-154): sum the per-worker
node counters in a `uint64_t`, each addition wrapping modulo `2 ^ 64`. -/
def nodesSearchedThreadPool (pool : List Thread) : Nat :=
  pool.foldl (fun acc t => (acc + t.nodes) % 2 ^ 64) 0

/-- `tbhitsThreadPool` (thread.c:156-167): sum the per-worker tbhit
counters in a `uint64_t`, each addition wrapping modulo `2 ^ 64`. -/
def tbhitsThreadPool (pool : List Thread) : Nat :=
  pool.foldl (fun acc t => (acc + t.tbhits) % 2 ^ 64) 0

/-- Logical frame-array addressing: the access pointer sits `off` slots
after the backing array's start, so logical index `i` (possibly
negative) resolves to backing index `off + i`. -/
def frameAddr (off : Nat) (i : Int) : Int := (off : Int) + i

/-- A backing index is valid for a frame array of capacity `size` when
it lies inside the array. -/
def validIndex (size : Nat) (a : Int) : Prop := 0 ≤ a ∧ a < (size : Int)

instance (size : Nat) (a : Int) : Decidable (validIndex size a) :=
  inferInstanceAs (Decidable (_ ∧ _))

/-- Modelled from the spec: the operating-system surface the POSIX
branch of misc.c talks to.  `files fd` is the byte content of the file
behind an open descriptor (`none` for an invalid descriptor),
`mmapResult fd len` is the address `mmap` returns for a read-only
shared mapping of `len` bytes of `fd` (`none` for `MAP_FAILED`, e.g. a
zero-length file or exhausted address space), `mem` is the byte held at
each address, and `mapped` is the set of live `(address, length)`
mappings. -/
structure OSModel where
  files : Nat → Option (List Nat)
  mmapResult : Nat → Nat → Option Nat
  mem : Nat → Nat
  mapped : List (Nat × Nat)

/-- `file_size` (misc.c:94-105): the byte length reported by `fstat`. -/
def file_size (os : OSModel) (fd : Nat) : Nat :=
  ((os.files fd).getD []).length

/-- `map_file` (misc.c:55-76), POSIX branch: store the file's size into
`*map`, request the mapping, and return `NULL` when `mmap` failed.  The
result pairs the returned data pointer with the stored `*map` size. -/
def map_file (os : OSModel) (fd : Nat) : Option Nat × Nat :=
  let size := file_size os fd
  (os.mmapResult fd size, size)

/-- `munmap`: the live mapping `(addr, len)` is released. -/
def munmap (addr len : Nat) (os : OSModel) : OSModel :=
  { os with mapped := os.mapped.filter fun r => r ≠ (addr, len) }

/-- `unmap_file` (misc.c:78-92), POSIX branch: a no-op on a null data
pointer, otherwise `munmap` of the recorded mapping. -/
def unmap_file (data : Option Nat) (map : Nat) (os : OSModel) : OSModel :=
  match data with
  | none => os
  | some p => munmap p map os

/-! Concrete instances used to witness the theorems below. -/

/-- A small concrete layout: capacity 3, padding offset 1, frame stride
and buffer offset both multiples of 64. -/
def L0 : Layout :=
  { STACK_SIZE := 3, STACK_OFFSET := 1, frameStride := 64, accOffset := 0 }

/-- A concrete aligned allocator: worker `i`'s array lives at
`64 * (i + 1)`. -/
def alloc0 : Nat → Nat := fun i => 64 * (i + 1)

/-- Concrete allocator junk: every uninitialized "computed" flag reads
as true. -/
def junk0 : Nat → Nat → Bool := fun _ _ => true

/-- A concrete worker, as built by pool creation. -/
def thread0 : Thread := createThread L0 alloc0 junk0 2 0

/-- A second concrete worker with a distinct allocation. -/
def thread1 : Thread := createThread L0 alloc0 junk0 2 1

/-- A concrete two-worker pool. -/
def pool0 : List Thread := [thread0, thread1]

/-- A concrete position snapshot with the first player to move. -/
def board0 : Board := { turn := 0, st := 5, rest := 7 }

/-- A concrete operating-system state: descriptor 3 is a two-byte file,
mapping it succeeds at address 100 where those bytes are visible, and
one mapping `(100, 2)` is live. -/
def os0 : OSModel :=
  { files := fun fd => if fd = 3 then some [10, 20] else none
    mmapResult := fun fd len => if fd = 3 ∧ len = 2 then some 100 else none
    mem := fun a => if a = 100 then 10 else if a = 101 then 20 else 0
    mapped := [(100, 2)] }

/-! Theorems. -/

/-- C1: after `newSearchThreadPool`, every worker's node counter is 0,
its tbhit counter is 0, its height is 0, and every accumulator frame's
"computed" flag is false, whatever the worker's state was before. -/
theorem newSearch_resets_counters_and_flags
    (L : Layout) (dp cx : Int) (pool : List Thread) (board : Board) (lim prog : Nat)
    (t : Thread) (ht : t ∈ newSearchThreadPool L dp cx pool board lim prog) :
    t.nodes = 0 ∧ t.tbhits = 0 ∧ t.height = 0 ∧
      ∀ f ∈ t.nnueFrames, f.accumulator.computedAccumulation = false := by
  rcases List.mem_map.1 ht with ⟨s, _, rfl⟩
  refine ⟨rfl, rfl, rfl, ?_⟩
  intro f hf
  rcases List.mem_map.1 hf with ⟨g, _, rfl⟩
  rfl

/-- Witness for C1 at a concrete pool, board and worker. -/
theorem newSearch_resets_counters_and_flags_witness :
    (newSearchThread L0 1 2 (searchContempt 20 5 board0.turn) board0 thread0).nodes = 0 ∧
    (newSearchThread L0 1 2 (searchContempt 20 5 board0.turn) board0 thread0).tbhits = 0 ∧
    (newSearchThread L0 1 2 (searchContempt 20 5 board0.turn) board0 thread0).height = 0 ∧
    ∀ f ∈ (newSearchThread L0 1 2 (searchContempt 20 5 board0.turn) board0 thread0).nnueFrames,
      f.accumulator.computedAccumulation = false :=
  newSearch_resets_counters_and_flags L0 20 5 pool0 board0 1 2
    (newSearchThread L0 1 2 (searchContempt 20 5 board0.turn) board0 thread0)
    (List.mem_map_of_mem _ (by simp [pool0]))

/-- C2: when the aligned allocator honours its contract (the returned
base, the frame stride and the buffer offset are all multiples of 64),
`createThreadPool` succeeds — the fatal branch is unreachable — and
every accumulator frame's buffer address in every worker is a multiple
of 64; and whenever the alignment check fails, creation terminates the
process (returns the error). -/
theorem create_accumulators_aligned
    (L : Layout) (alloc : Nat → Nat) (junk : Nat → Nat → Bool) (n : Nat)
    (hb : ∀ i, alloc i % 64 = 0) (hs : L.frameStride % 64 = 0)
    (ha : L.accOffset % 64 = 0) :
    createThreadPool L alloc junk n =
      Except.ok ((List.range n).map (createThread L alloc junk n)) ∧
    (∀ t ∈ (List.range n).map (createThread L alloc junk n),
      ∀ f ∈ t.nnueFrames, f.accumulator.accumulation % 64 = 0) ∧
    (∀ (L' : Layout) (alloc' : Nat → Nat) (junk' : Nat → Nat → Bool) (n' : Nat),
      alignedOK L' alloc' n' = false →
      createThreadPool L' alloc' junk' n' = Except.error ()) := by
  have key : ∀ i j, (alloc i + j * L.frameStride + L.accOffset) % 64 = 0 := by
    intro i j
    have h1 := hb i
    have h2 : (j * L.frameStride) % 64 = 0 := by
      rw [Nat.mul_mod, hs, Nat.mul_zero, Nat.zero_mod]
    omega
  have hOK : alignedOK L alloc n = true := by
    simp only [alignedOK, List.all_eq_true, beq_iff_eq]
    intro i _ j _
    exact key i j
  refine ⟨by simp [createThreadPool, hOK], ?_, ?_⟩
  · intro t ht f hf
    rcases List.mem_map.1 ht with ⟨i, _, rfl⟩
    rcases List.mem_map.1 hf with ⟨j, _, rfl⟩
    exact key i j
  · intro L' alloc' junk' n' hbad
    simp [createThreadPool, hbad]

/-- Witness for C2: the concrete aligned allocator yields a successful
creation. -/
theorem create_accumulators_aligned_witness :
    createThreadPool L0 alloc0 junk0 2 =
      Except.ok ((List.range 2).map (createThread L0 alloc0 junk0 2)) :=
  (create_accumulators_aligned L0 alloc0 junk0 2
    (fun i => Nat.mul_mod_right 64 (i + 1)) (by decide) (by decide)).1

/-- Folding wrapped 64-bit addition over a list equals the plain sum
reduced modulo `2 ^ 64`. -/
theorem foldl_wrap (f : Thread → Nat) (l : List Thread) :
    ∀ a : Nat, l.foldl (fun acc t => (acc + f t) % 2 ^ 64) (a % 2 ^ 64) =
      (a + (l.map f).sum) % 2 ^ 64 := by
  induction l with
  | nil => intro a; simp
  | cons t l ih =>
      intro a
      simp only [List.foldl_cons, List.map_cons, List.sum_cons]
      rw [Nat.mod_add_mod, ih (a + f t), Nat.add_assoc]

/-- C3: the aggregators return exactly the sum of the per-worker
counters as unsigned 64-bit values with natural wraparound; both are
pure functions of the pool and leave every worker record untouched. -/
theorem aggregate_sums (pool : List Thread) :
    nodesSearchedThreadPool pool = (pool.map Thread.nodes).sum % 2 ^ 64 ∧
    tbhitsThreadPool pool = (pool.map Thread.tbhits).sum % 2 ^ 64 := by
  constructor
  · have h := foldl_wrap Thread.nodes pool 0
    simpa [nodesSearchedThreadPool] using h
  · have h := foldl_wrap Thread.tbhits pool 0
    simpa [tbhitsThreadPool] using h

/-- C4: with draw-penalty 20 and complexity 5, the stored contempt of
every worker is the value computed once from the given position's side
to move; with the first player to move its first-player component
unpacks to 25 and its second-player component to 20, and with the
second player to move the stored value is the negation of the whole
packed score, which unpacks to -25 and -20. -/
theorem contempt_sign_spec (L : Layout) (pool : List Thread) (board : Board)
    (lim prog : Nat) :
    (∀ t ∈ newSearchThreadPool L 20 5 pool board lim prog,
        t.contempt = searchContempt 20 5 board.turn) ∧
    ScoreMG (searchContempt 20 5 WHITE) = 25 ∧
    ScoreEG (searchContempt 20 5 WHITE) = 20 ∧
    searchContempt 20 5 BLACK = -searchContempt 20 5 WHITE ∧
    ScoreMG (searchContempt 20 5 BLACK) = -25 ∧
    ScoreEG (searchContempt 20 5 BLACK) = -20 := by
  refine ⟨?_, by decide, by decide, by decide, by decide, by decide⟩
  intro t ht
  rcases List.mem_map.1 ht with ⟨s, _, rfl⟩
  rfl

/-- Witness for C4 at a concrete pool and board. -/
theorem contempt_sign_spec_witness :
    (∀ t ∈ newSearchThreadPool L0 20 5 pool0 board0 1 2,
        t.contempt = searchContempt 20 5 board0.turn) ∧
    ScoreMG (searchContempt 20 5 WHITE) = 25 ∧
    ScoreEG (searchContempt 20 5 WHITE) = 20 ∧
    searchContempt 20 5 BLACK = -searchContempt 20 5 WHITE ∧
    ScoreMG (searchContempt 20 5 BLACK) = -25 ∧
    ScoreEG (searchContempt 20 5 BLACK) = -20 :=
  contempt_sign_spec L0 pool0 board0 1 2

/-- C5: after the hard reset every worker's two evaluation memoization
tables and five move-ordering tables are entirely zero, and the reset
is idempotent (being a pure function of the pool, it is deterministic). -/
theorem reset_zeroes_and_idempotent (pool : List Thread) :
    (∀ t ∈ resetThreadPool pool,
        t.evtable = zeroTable ∧ t.pktable = zeroTable ∧ t.killers = zeroTable ∧
        t.cmtable = zeroTable ∧ t.history = zeroTable ∧ t.chistory = zeroTable ∧
        t.continuation = zeroTable) ∧
    resetThreadPool (resetThreadPool pool) = resetThreadPool pool := by
  constructor
  · intro t ht
    rcases List.mem_map.1 ht with ⟨s, _, rfl⟩
    exact ⟨rfl, rfl, rfl, rfl, rfl, rfl, rfl⟩
  · show (pool.map resetThread).map resetThread = pool.map resetThread
    rw [List.map_map]
    exact congrArg pool.map (funext fun t => rfl)

/-- Witness for C5 at a concrete pool. -/
theorem reset_zeroes_and_idempotent_witness :
    (∀ t ∈ resetThreadPool pool0,
        t.evtable = zeroTable ∧ t.pktable = zeroTable ∧ t.killers = zeroTable ∧
        t.cmtable = zeroTable ∧ t.history = zeroTable ∧ t.chistory = zeroTable ∧
        t.continuation = zeroTable) ∧
    resetThreadPool (resetThreadPool pool0) = resetThreadPool pool0 :=
  reset_zeroes_and_idempotent pool0

/-- C6: the search-start initialization preserves every worker's
move-ordering tables and evaluation memoization tables, position by
position in the pool; the hard reset is the operation that clears
them. -/
theorem newSearch_preserves_tables (L : Layout) (dp cx : Int) (pool : List Thread)
    (board : Board) (lim prog : Nat) :
    (∀ i : Nat,
      (newSearchThreadPool L dp cx pool board lim prog)[i]?.map Thread.killers =
        pool[i]?.map Thread.killers ∧
      (newSearchThreadPool L dp cx pool board lim prog)[i]?.map Thread.cmtable =
        pool[i]?.map Thread.cmtable ∧
      (newSearchThreadPool L dp cx pool board lim prog)[i]?.map Thread.history =
        pool[i]?.map Thread.history ∧
      (newSearchThreadPool L dp cx pool board lim prog)[i]?.map Thread.chistory =
        pool[i]?.map Thread.chistory ∧
      (newSearchThreadPool L dp cx pool board lim prog)[i]?.map Thread.continuation =
        pool[i]?.map Thread.continuation ∧
      (newSearchThreadPool L dp cx pool board lim prog)[i]?.map Thread.evtable =
        pool[i]?.map Thread.evtable ∧
      (newSearchThreadPool L dp cx pool board lim prog)[i]?.map Thread.pktable =
        pool[i]?.map Thread.pktable) ∧
    (∀ t ∈ resetThreadPool pool,
      t.killers = zeroTable ∧ t.cmtable = zeroTable ∧ t.history = zeroTable ∧
      t.chistory = zeroTable ∧ t.continuation = zeroTable ∧
      t.evtable = zeroTable ∧ t.pktable = zeroTable) := by
  constructor
  · intro i
    show _ ∧ _ ∧ _ ∧ _ ∧ _ ∧ _ ∧ _
    rw [newSearchThreadPool, List.getElem?_map]
    cases pool[i]? <;> exact ⟨rfl, rfl, rfl, rfl, rfl, rfl, rfl⟩
  · intro t ht
    rcases List.mem_map.1 ht with ⟨s, _, rfl⟩
    exact ⟨rfl, rfl, rfl, rfl, rfl, rfl, rfl⟩

/-- Witness for C6 at a concrete pool and board. -/
theorem newSearch_preserves_tables_witness :
    (∀ i : Nat,
      (newSearchThreadPool L0 20 5 pool0 board0 1 2)[i]?.map Thread.killers =
        pool0[i]?.map Thread.killers ∧
      (newSearchThreadPool L0 20 5 pool0 board0 1 2)[i]?.map Thread.cmtable =
        pool0[i]?.map Thread.cmtable ∧
      (newSearchThreadPool L0 20 5 pool0 board0 1 2)[i]?.map Thread.history =
        pool0[i]?.map Thread.history ∧
      (newSearchThreadPool L0 20 5 pool0 board0 1 2)[i]?.map Thread.chistory =
        pool0[i]?.map Thread.chistory ∧
      (newSearchThreadPool L0 20 5 pool0 board0 1 2)[i]?.map Thread.continuation =
        pool0[i]?.map Thread.continuation ∧
      (newSearchThreadPool L0 20 5 pool0 board0 1 2)[i]?.map Thread.evtable =
        pool0[i]?.map Thread.evtable ∧
      (newSearchThreadPool L0 20 5 pool0 board0 1 2)[i]?.map Thread.pktable =
        pool0[i]?.map Thread.pktable) ∧
    (∀ t ∈ resetThreadPool pool0,
      t.killers = zeroTable ∧ t.cmtable = zeroTable ∧ t.history = zeroTable ∧
      t.chistory = zeroTable ∧ t.continuation = zeroTable ∧
      t.evtable = zeroTable ∧ t.pktable = zeroTable) :=
  newSearch_preserves_tables L0 20 5 pool0 board0 1 2

/-- C7: every worker of a successfully created pool has its four
frame-array access pointers offset by exactly the padding constant from
the start of the backing arrays, and for any padding offset `k ≥ 1`
(with index 0 in range), logical index `-1` resolves to a valid backing
record distinct from the one at logical index `0`. -/
theorem create_stack_pointers_offset
    (L : Layout) (alloc : Nat → Nat) (junk : Nat → Nat → Bool) (n : Nat)
    (pool : List Thread) (hok : createThreadPool L alloc junk n = Except.ok pool)
    (t : Thread) (ht : t ∈ pool) :
    (t.evalStack = L.STACK_OFFSET ∧ t.moveStack = L.STACK_OFFSET ∧
     t.pieceStack = L.STACK_OFFSET ∧ t.nnueStackOff = L.STACK_OFFSET) ∧
    ∀ size k : Nat, 1 ≤ k → k < size →
      validIndex size (frameAddr k (-1)) ∧ frameAddr k (-1) ≠ frameAddr k 0 := by
  have hpool : pool = (List.range n).map (createThread L alloc junk n) := by
    by_cases hA : alignedOK L alloc n = true
    · rw [createThreadPool, if_pos hA] at hok
      exact (Except.ok.injEq _ _ ▸ congrArg id hok).symm ▸ (Except.ok.inj hok).symm
    · rw [createThreadPool, if_neg hA] at hok
      exact absurd hok (by simp)
  subst hpool
  constructor
  · rcases List.mem_map.1 ht with ⟨i, _, rfl⟩
    exact ⟨rfl, rfl, rfl, rfl⟩
  · intro size k hk hks
    constructor
    · constructor
      · show (0 : Int) ≤ (k : Int) + (-1)
        omega
      · show (k : Int) + (-1) < (size : Int)
        omega
    · show (k : Int) + (-1) ≠ (k : Int) + 0
      omega

/-- Witness for C7 at the concretely created pool. -/
theorem create_stack_pointers_offset_witness :
    (thread0.evalStack = L0.STACK_OFFSET ∧ thread0.moveStack = L0.STACK_OFFSET ∧
     thread0.pieceStack = L0.STACK_OFFSET ∧ thread0.nnueStackOff = L0.STACK_OFFSET) ∧
    ∀ size k : Nat, 1 ≤ k → k < size →
      validIndex size (frameAddr k (-1)) ∧ frameAddr k (-1) ≠ frameAddr k 0 :=
  create_stack_pointers_offset L0 alloc0 junk0 2 pool0 rfl thread0 (by simp [pool0])

/-- C8: unmapping a null pointer is a no-op that cannot fail; unmapping
a non-null pointer releases the recorded mapping, which is then no
longer live. -/
theorem unmap_null_noop (os : OSModel) (m : Nat) :
    unmap_file none m os = os ∧
    ∀ p : Nat, unmap_file (some p) m os = munmap p m os ∧
      (p, m) ∉ (unmap_file (some p) m os).mapped := by
  refine ⟨rfl, fun p => ⟨rfl, ?_⟩⟩
  simp [unmap_file, munmap, List.mem_filter]

/-- Witness for C8 at a concrete operating-system state. -/
theorem unmap_null_noop_witness :
    unmap_file none 2 os0 = os0 ∧
    ∀ p : Nat, unmap_file (some p) 2 os0 = munmap p 2 os0 ∧
      (p, 2) ∉ (unmap_file (some p) 2 os0).mapped :=
  unmap_null_noop os0 2

/-- C9: mapping an open descriptor of a file of size `S` stores `S` as
the reported mapping size; the result is null exactly when the
underlying mapping attempt fails (so callers can treat the resource as
unavailable); and a non-null result points at the file's `S` bytes,
given the operating system's guarantee about successful read-only
shared mappings. -/
theorem map_file_roundtrip (os : OSModel) (fd : Nat) (bytes : List Nat)
    (hf : os.files fd = some bytes)
    (hmem : ∀ addr, os.mmapResult fd bytes.length = some addr →
      ∀ i, i < bytes.length → os.mem (addr + i) = bytes.getD i 0) :
    (map_file os fd).2 = bytes.length ∧
    ((map_file os fd).1 = none ↔ os.mmapResult fd bytes.length = none) ∧
    ∀ addr, (map_file os fd).1 = some addr →
      os.mmapResult fd bytes.length = some addr ∧
      ∀ i, i < bytes.length → os.mem (addr + i) = bytes.getD i 0 := by
  have hsize : file_size os fd = bytes.length := by
    simp [file_size, hf]
  refine ⟨?_, ?_, ?_⟩
  · show file_size os fd = bytes.length
    exact hsize
  · show os.mmapResult fd (file_size os fd) = none ↔ _
    rw [hsize]
  · intro addr haddr
    have h : os.mmapResult fd bytes.length = some addr := by
      rw [← hsize]
      exact haddr
    exact ⟨h, hmem addr h⟩

/-- Witness for C9 at a concrete operating-system state and file. -/
theorem map_file_roundtrip_witness :
    (map_file os0 3).2 = [10, 20].length ∧
    ((map_file os0 3).1 = none ↔ os0.mmapResult 3 [10, 20].length = none) ∧
    ∀ addr, (map_file os0 3).1 = some addr →
      os0.mmapResult 3 [10, 20].length = some addr ∧
      ∀ i, i < [10, 20].length → os0.mem (addr + i) = [10, 20].getD i 0 :=
  map_file_roundtrip os0 3 [10, 20] rfl (by
    intro addr h i hi
    simp [os0] at h
    subst h
    have hi2 : i < 2 := by simpa using hi
    interval_cases i <;> rfl)

/-- C10: after `newSearchThreadPool` every worker carries the same
contempt (computed once from the given position's side to move), the
same limits reference and the same progress reference; each worker's
private position copy agrees with the given position on every field
except the state pointer, which is rebound to the worker's own
accumulator frame pointer; and two workers with distinct frame-array
allocations end up with distinct state pointers. -/
theorem newSearch_uniform_and_private_state
    (L : Layout) (dp cx : Int) (pool : List Thread) (board : Board)
    (lim prog : Nat) :
    (∀ t ∈ newSearchThreadPool L dp cx pool board lim prog,
        t.contempt = searchContempt dp cx board.turn ∧
        t.limits = lim ∧ t.info = prog ∧
        t.board.turn = board.turn ∧ t.board.rest = board.rest ∧
        t.board.st = t.nnueBase + t.nnueStackOff * L.frameStride) ∧
    (∀ (i j : Nat) (ti tj : Thread), pool[i]? = some ti → pool[j]? = some tj →
        ti.nnueStackOff = tj.nnueStackOff → ti.nnueBase ≠ tj.nnueBase →
        (newSearchThreadPool L dp cx pool board lim prog)[i]?.map (fun t => t.board.st) ≠
        (newSearchThreadPool L dp cx pool board lim prog)[j]?.map (fun t => t.board.st)) := by
  constructor
  · intro t ht
    rcases List.mem_map.1 ht with ⟨s, _, rfl⟩
    exact ⟨rfl, rfl, rfl, rfl, rfl, rfl⟩
  · intro i j ti tj hi hj hoff hbase
    rw [newSearchThreadPool, List.getElem?_map, List.getElem?_map, hi, hj]
    intro hEq
    have hEq2 : ti.nnueBase + ti.nnueStackOff * L.frameStride =
        tj.nnueBase + tj.nnueStackOff * L.frameStride := by
      simpa [newSearchThread] using hEq
    rw [hoff] at hEq2
    omega

/-- Witness for C10 at the concrete two-worker pool, whose workers hold
distinct aligned allocations. -/
theorem newSearch_uniform_and_private_state_witness :
    (∀ t ∈ newSearchThreadPool L0 20 5 pool0 board0 1 2,
        t.contempt = searchContempt 20 5 board0.turn ∧
        t.limits = 1 ∧ t.info = 2 ∧
        t.board.turn = board0.turn ∧ t.board.rest = board0.rest ∧
        t.board.st = t.nnueBase + t.nnueStackOff * L0.frameStride) ∧
    (∀ (i j : Nat) (ti tj : Thread), pool0[i]? = some ti → pool0[j]? = some tj →
        ti.nnueStackOff = tj.nnueStackOff → ti.nnueBase ≠ tj.nnueBase →
        (newSearchThreadPool L0 20 5 pool0 board0 1 2)[i]?.map (fun t => t.board.st) ≠
        (newSearchThreadPool L0 20 5 pool0 board0 1 2)[j]?.map (fun t => t.board.st)) :=
  newSearch_uniform_and_private_state L0 20 5 pool0 board0 1 2

end Ethereal
